import Mathlib

/-!
Shallow embedding of the Flowr timer (src/app.js), its scheduled-finish
evaluator (`finishIfDue`), and the Discord bot's shared timer record
(src/discord-bot.js).

Modelling conventions:
- JS strings are `List Char`; `toLowerCase`, `trim`, `includes` and the
  `s || dflt` falsy-default idiom are given executable counterparts below.
- `Date.now()` readings are `Int` milliseconds, supplied as explicit
  arguments wherever the code reads the clock (so a clock that moves
  backwards is just a smaller argument on a later call).
- JS nullable fields are `Option`; `null`/`undefined` are `none`.
- The random `safeUUID` session id is omitted from the session record: it
  is an opaque fresh string that none of the verified properties mention.
-/

namespace Flowr

/-- JS `String.prototype.toLowerCase` (per-character lowering). -/
def jsToLower (s : List Char) : List Char := s.map Char.toLower

/-- JS `String.prototype.trim`: strip leading and trailing whitespace. -/
def jsTrim (s : List Char) : List Char :=
  ((s.dropWhile Char.isWhitespace).reverse.dropWhile Char.isWhitespace).reverse

/-- JS `hay.includes(needle)`: substring containment. -/
def jsIncludes : List Char → List Char → Bool
  | hay, needle =>
    if needle.isPrefixOf hay then true
    else
      match hay with
      | [] => false
      | _ :: t => jsIncludes t needle

/-- JS `s || dflt` for strings: the empty string is falsy. -/
def jsOrDefault (s dflt : List Char) : List Char :=
  if s = [] then dflt else s

/-- Session status of the interactive app (src/app.js line 11) and of the
bot's shared record; the bot only ever writes these three values. -/
inductive FlowrStatus
  | idle
  | running
  | stopped
  deriving DecidableEq, Repr

/-- Stop reasons (src/app.js line 12). -/
inductive StopReason
  | manual
  | voice_any
  | voice_keyword
  | error
  deriving DecidableEq, Repr

/-- Voice auto-stop mode (`getVoiceMode` returns `"keyword"` or `"any"`). -/
inductive VoiceMode
  | any
  | keyword
  deriving DecidableEq, Repr

/-- A finalized session as appended to history (src/app.js lines 396-407),
minus the random `id`. `startedAt`/`endedAt` ISO strings are modelled by
their underlying millisecond instants. -/
structure FlowrSession where
  startedAt : Int
  endedAt : Int
  durationMs : Int
  stopReason : StopReason
  voiceEnabled : Bool
  voiceMode : Option VoiceMode
  keyword : Option (List Char)
  transcriptSnippet : Option (List Char)
  deriving DecidableEq, Repr

/-- `HISTORY_LIMIT` (src/app.js line 9). -/
def HISTORY_LIMIT : Nat := 10

/-- `pushSessionToHistory` at the list level (src/app.js lines 242-247 with
`saveHistory`, lines 163-170): prepend the new session and keep the first
`HISTORY_LIMIT` entries. -/
def pushSessionToHistory (session : FlowrSession) (existing : List FlowrSession) :
    List FlowrSession :=
  (session :: existing).take HISTORY_LIMIT

/-- The interactive app's mutable state (src/app.js lines 49-70 plus the
voice-configuration DOM inputs it reads). `startCalls` counts calls of the
native `recognition.start()`, so re-arm attempts are observable. -/
structure AppState where
  status : FlowrStatus
  startedAtMs : Option Int
  endedAtMs : Option Int
  stopReason : Option StopReason
  lastTranscript : List Char
  history : List FlowrSession
  voiceEnabled : Bool
  voiceMode : VoiceMode
  keywordInput : List Char
  speechSupported : Bool
  recognitionStarting : Bool
  startCalls : Nat
  deriving DecidableEq, Repr

/-- `getKeyword` (src/app.js lines 101-103): the trimmed keyword input. -/
def getKeyword (s : AppState) : List Char := jsTrim s.keywordInput

/-- `startRecognition` (src/app.js lines 295-310): guarded arm of the
recognition stream. The success path of `r.start()` is modelled; the
`catch` branch (start on an already-started stream) only resets the
debounce flag and attempts no start. -/
def startRecognition (s : AppState) : AppState :=
  if !s.speechSupported || !s.voiceEnabled then s
  else if s.status ≠ FlowrStatus.running then s
  else if s.recognitionStarting then s
  else { s with recognitionStarting := true, startCalls := s.startCalls + 1 }

/-- `stopRecognition` (src/app.js lines 312-330): clears the debounce flag
and stops the native stream. The `onend` handler is nulled only for the
duration of the synchronous call and restored in `finally`, so an end
event delivered afterwards runs the restored handler (`onendEvent`). -/
def stopRecognition (s : AppState) : AppState :=
  { s with recognitionStarting := false }

/-- The (restored) `onend` handler (src/app.js lines 263-269 and 323-328):
when the stream ends while the session is still running with voice enabled
and speech supported, attempt a restart. -/
def onendEvent (s : AppState) : AppState :=
  if s.status = FlowrStatus.running ∧ s.voiceEnabled ∧ s.speechSupported then
    startRecognition s
  else s

/-- `handleStart` (src/app.js lines 351-373). -/
def handleStart (now : Int) (s : AppState) : AppState :=
  if s.status = FlowrStatus.running then s
  else
    let s1 := stopRecognition s
    let s2 := { s1 with
      startedAtMs := some now
      endedAtMs := none
      stopReason := none
      lastTranscript := []
      status := FlowrStatus.running }
    startRecognition s2

/-- `handleStop` (src/app.js lines 376-413). The `transcriptForStop`
argument is accepted and discarded exactly as in the source (line 410:
`void transcriptForStop`). -/
def handleStop (reason : StopReason) (transcriptForStop : List Char) (now : Int)
    (s : AppState) : AppState :=
  if s.status ≠ FlowrStatus.running then s
  else
    match s.startedAtMs with
    | none => s
    | some started =>
      let s1 := stopRecognition { s with endedAtMs := some now, stopReason := some reason }
      let durationMs : Int := max 0 (now - started)
      let s2 := { s1 with status := FlowrStatus.stopped }
      let session : FlowrSession := {
        startedAt := started
        endedAt := now
        durationMs := durationMs
        stopReason := reason
        voiceEnabled := s.voiceEnabled
        voiceMode := if s.voiceEnabled then some s.voiceMode else none
        keyword := if s.voiceEnabled ∧ s.voiceMode = VoiceMode.keyword
                   then some (getKeyword s) else none
        transcriptSnippet := none }
      { s2 with history := pushSessionToHistory session s2.history }

/-- The session record built by `handleStop` (src/app.js lines 396-407),
named so theorems can speak about the appended entry. -/
def sessionOfStop (reason : StopReason) (started now : Int) (s : AppState) :
    FlowrSession :=
  { startedAt := started
    endedAt := now
    durationMs := max 0 (now - started)
    stopReason := reason
    voiceEnabled := s.voiceEnabled
    voiceMode := if s.voiceEnabled then some s.voiceMode else none
    keyword := if s.voiceEnabled ∧ s.voiceMode = VoiceMode.keyword
               then some (getKeyword s) else none
    transcriptSnippet := none }

/-- `handleReset` (src/app.js lines 415-429). -/
def handleReset (s : AppState) : AppState :=
  let s1 := stopRecognition s
  { s1 with
    status := FlowrStatus.idle
    startedAtMs := none
    endedAtMs := none
    stopReason := none
    lastTranscript := [] }

/-- The branch structure of `maybeVoiceStop` (src/app.js lines 332-349) as
a pure decision: `none` means no stop is issued, `some r` means
`handleStop r` is called. -/
def voiceStopDecision (transcript : List Char) (status : FlowrStatus)
    (voiceEnabled : Bool) (mode : VoiceMode) (keywordInput : List Char) :
    Option StopReason :=
  if status ≠ FlowrStatus.running then none
  else if !voiceEnabled then none
  else if mode = VoiceMode.any then some StopReason.voice_any
  else
    let keyword := jsTrim keywordInput
    if keyword = [] then none
    else if jsIncludes (jsToLower transcript) (jsToLower keyword) then
      some StopReason.voice_keyword
    else none

/-- `maybeVoiceStop` (src/app.js lines 332-349): apply the decision. -/
def maybeVoiceStop (transcript : List Char) (now : Int) (s : AppState) : AppState :=
  match voiceStopDecision transcript s.status s.voiceEnabled s.voiceMode s.keywordInput with
  | none => s
  | some reason => handleStop reason transcript now s

/-- The transcript synthesized by the simulate button (src/app.js line 460):
`getVoiceMode() === "keyword" ? getKeyword() || "stop" : "hello"`. -/
def simulateTranscript (mode : VoiceMode) (keywordInput : List Char) : List Char :=
  if mode = VoiceMode.keyword then jsOrDefault (jsTrim keywordInput) "stop".toList
  else "hello".toList

/-- The stop decision taken by the simulate click handler (src/app.js lines
458-476). Note it consults neither `voiceEnabled` nor `speechSupported`,
and defaults an empty keyword to `"stop"` (line 470). -/
def simulateStopDecision (status : FlowrStatus) (mode : VoiceMode)
    (keywordInput : List Char) : Option StopReason :=
  let simulated := simulateTranscript mode keywordInput
  if status ≠ FlowrStatus.running then none
  else if mode = VoiceMode.any then some StopReason.voice_any
  else
    let keyword := jsOrDefault (jsTrim keywordInput) "stop".toList
    if jsIncludes (jsToLower simulated) (jsToLower keyword) then
      some StopReason.voice_keyword
    else none

/-- The simulate click handler's state effect (src/app.js lines 458-476). -/
def simulateClick (now : Int) (s : AppState) : AppState :=
  match simulateStopDecision s.status s.voiceMode s.keywordInput with
  | none => s
  | some reason =>
    handleStop reason (simulateTranscript s.voiceMode s.keywordInput) now s

/-- The `voiceEnabled` change handler (src/app.js lines 478-488). -/
def setVoiceEnabled (checked : Bool) (s : AppState) : AppState :=
  let s1 := { s with voiceEnabled := checked }
  let s2 := if s1.status = FlowrStatus.running ∧ checked then startRecognition s1 else s1
  if !checked then stopRecognition s2 else s2

/-- Switching the voice-mode radio (src/app.js lines 490-497). -/
def setVoiceMode (m : VoiceMode) (s : AppState) : AppState :=
  { s with voiceMode := m }

/-- Editing the keyword input (src/app.js lines 499-501). -/
def setKeywordInput (kw : List Char) (s : AppState) : AppState :=
  { s with keywordInput := kw }

/-! ### Scheduled-finish evaluator (src/app.js lines 205-240) -/

/-- Status of the duration-bounded session record consumed by
`finishIfDue` (src/app.js line 206 typedef). -/
inductive SchedStatus
  | running
  | finished
  deriving DecidableEq, Repr

/-- The session-state record passed to `finishIfDue`; `startTs` appears in
the dev test (src/app.js line 228) and is carried through the spread. -/
structure SchedState where
  status : SchedStatus
  startTs : Option Int
  autoFinishTs : Option Int
  finishTs : Option Int
  deriving DecidableEq, Repr

/-- JS truthiness of a nullable number: `null`/`undefined` and `0` are
falsy (the `if (!autoFinishTs)` guard at src/app.js line 212). -/
def jsTruthyNum : Option Int → Bool
  | none => false
  | some n => n != 0

/-- `finishIfDue` (src/app.js lines 209-220): on observation at `now`, a
running record whose truthy `autoFinishTs` has passed is finished at the
scheduled instant, not at `now`; every other record is returned unchanged. -/
def finishIfDue (state : SchedState) (now : Int) : SchedState :=
  if state.status ≠ SchedStatus.running then state
  else
    match state.autoFinishTs with
    | none => state
    | some ts =>
      if ts = 0 then state
      else if now < ts then state
      else { state with finishTs := some ts, status := SchedStatus.finished }

/-! ### The Discord bot's shared timer record (src/discord-bot.js) -/

/-- The record persisted in `timer-state.json` (src/discord-bot.js lines
97-106): the bot only ever writes the statuses idle/running/stopped. -/
structure BotTimerState where
  status : FlowrStatus
  startedAt : Option Int
  endedAt : Option Int
  durationMs : Option Int
  stopReason : Option StopReason
  voiceEnabled : Bool
  voiceMode : Option VoiceMode
  keyword : Option (List Char)
  deriving DecidableEq, Repr

/-- The default record returned by `loadTimerState` when the state file is
absent or unreadable (src/discord-bot.js lines 97-106). Note `durationMs`
defaults to `0`, not `null`. -/
def defaultTimerState : BotTimerState :=
  { status := FlowrStatus.idle
    startedAt := none
    endedAt := none
    durationMs := some 0
    stopReason := none
    voiceEnabled := false
    voiceMode := none
    keyword := none }

/-- The `timer-start` command and `timer_start` button (src/discord-bot.js
lines 312-340 and 752-778): guarded by the running check, then a
whole-record read-modify-write via `updateTimerState`. -/
def timerStart (now : Int) (b : BotTimerState) : BotTimerState :=
  if b.status = FlowrStatus.running then b
  else { b with
    status := FlowrStatus.running
    startedAt := some now
    endedAt := none
    durationMs := some 0
    stopReason := none }

/-- The `timer-stop` command and `timer_stop` button (src/discord-bot.js
lines 342-373 and 779-808). `new Date(null)` is the epoch, hence the
`getD 0` for a (unreachable) null `startedAt`. -/
def timerStop (now : Int) (b : BotTimerState) : BotTimerState :=
  if b.status ≠ FlowrStatus.running then b
  else
    let startedMs := b.startedAt.getD 0
    { b with
      status := FlowrStatus.stopped
      endedAt := some now
      durationMs := some (max 0 (now - startedMs))
      stopReason := some StopReason.manual }

/-- The `timer-reset` command and `timer_reset` button (src/discord-bot.js
lines 375-393 and 809-825). -/
def timerReset (b : BotTimerState) : BotTimerState :=
  { b with
    status := FlowrStatus.idle
    startedAt := none
    endedAt := none
    durationMs := some 0
    stopReason := none }

/-- Bot records reachable from the default state by any sequence of
start/stop/reset commands at arbitrary clock readings. -/
inductive BotReachable : BotTimerState → Prop
  | init : BotReachable defaultTimerState
  | start (now : Int) {b : BotTimerState} :
      BotReachable b → BotReachable (timerStart now b)
  | stop (now : Int) {b : BotTimerState} :
      BotReachable b → BotReachable (timerStop now b)
  | reset {b : BotTimerState} :
      BotReachable b → BotReachable (timerReset b)

/-- A fresh app state after `init()` (src/app.js lines 509-518): idle, no
timestamps, empty history, no pending recognition start; the voice
configuration and environment support are arbitrary. -/
def initialAppState (voiceEnabled : Bool) (mode : VoiceMode)
    (keywordInput : List Char) (speechSupported : Bool) : AppState :=
  { status := FlowrStatus.idle
    startedAtMs := none
    endedAtMs := none
    stopReason := none
    lastTranscript := []
    history := []
    voiceEnabled := voiceEnabled
    voiceMode := mode
    keywordInput := keywordInput
    speechSupported := speechSupported
    recognitionStarting := false
    startCalls := 0 }

/-- App states reachable from a fresh state by any interleaving of user
commands, voice events, stream-end events and configuration edits, at
arbitrary clock readings. -/
inductive AppReachable : AppState → Prop
  | init (ve : Bool) (m : VoiceMode) (kw : List Char) (sup : Bool) :
      AppReachable (initialAppState ve m kw sup)
  | start (now : Int) {s : AppState} :
      AppReachable s → AppReachable (handleStart now s)
  | stop (reason : StopReason) (tr : List Char) (now : Int) {s : AppState} :
      AppReachable s → AppReachable (handleStop reason tr now s)
  | reset {s : AppState} :
      AppReachable s → AppReachable (handleReset s)
  | voiceStop (tr : List Char) (now : Int) {s : AppState} :
      AppReachable s → AppReachable (maybeVoiceStop tr now s)
  | simulate (now : Int) {s : AppState} :
      AppReachable s → AppReachable (simulateClick now s)
  | streamEnd {s : AppState} :
      AppReachable s → AppReachable (onendEvent s)
  | setVoice (checked : Bool) {s : AppState} :
      AppReachable s → AppReachable (setVoiceEnabled checked s)
  | setMode (m : VoiceMode) {s : AppState} :
      AppReachable s → AppReachable (setVoiceMode m s)
  | setKw (kw : List Char) {s : AppState} :
      AppReachable s → AppReachable (setKeywordInput kw s)

/-! ### The history read path (src/app.js lines 150-161) -/

/-- A parsed JSON value, as produced by a successful `JSON.parse`. -/
inductive JsValue
  | jsNull
  | jsBool (b : Bool)
  | jsNum (n : Int)
  | jsStr (s : List Char)
  | jsArr (elems : List JsValue)
  | jsObj (fields : List (List Char × JsValue))

/-- `loadHistory` (src/app.js lines 150-161), parameterised by the
behaviour of `JSON.parse` (`none` models a parse exception, caught by the
surrounding try/catch). `stored` is the raw `localStorage` slot; `none`
models an absent key and the empty string is rejected by the `if (!raw)`
falsy guard. -/
def loadHistory (parse : List Char → Option JsValue) (stored : Option (List Char)) :
    List JsValue :=
  match stored with
  | none => []
  | some raw =>
    if raw = [] then []
    else
      match parse raw with
      | none => []
      | some v =>
        match v with
        | JsValue.jsArr elems => elems
        | _ => []

/-! ### Helper lemmas -/

theorem isPrefixOf_self (l : List Char) : l.isPrefixOf l = true := by
  induction l with
  | nil => rfl
  | cons a t ih => simp [List.isPrefixOf_cons₂, ih]

theorem jsIncludes_self (l : List Char) : jsIncludes l l = true := by
  cases l with
  | nil => decide
  | cons a t => rw [jsIncludes]; simp [isPrefixOf_self]

theorem startRecognition_status (s : AppState) :
    (startRecognition s).status = s.status := by
  unfold startRecognition; split_ifs <;> rfl

theorem startRecognition_endedAtMs (s : AppState) :
    (startRecognition s).endedAtMs = s.endedAtMs := by
  unfold startRecognition; split_ifs <;> rfl

theorem startRecognition_startedAtMs (s : AppState) :
    (startRecognition s).startedAtMs = s.startedAtMs := by
  unfold startRecognition; split_ifs <;> rfl

theorem startRecognition_history (s : AppState) :
    (startRecognition s).history = s.history := by
  unfold startRecognition; split_ifs <;> rfl

/-- The safety invariant threaded through every app transition: `endedAtMs`
is non-null exactly in the stopped state, and every finalized history entry
has a non-negative duration. -/
def AppInv (s : AppState) : Prop :=
  (s.endedAtMs ≠ none ↔ s.status = FlowrStatus.stopped) ∧
  (∀ e ∈ s.history, 0 ≤ e.durationMs)

theorem appInv_of_fields {s t : AppState} (h : AppInv s)
    (hst : t.status = s.status) (hend : t.endedAtMs = s.endedAtMs)
    (hh : t.history = s.history) : AppInv t := by
  unfold AppInv at h ⊢
  rw [hst, hend, hh]
  exact h

theorem appInv_startRecognition {s : AppState} (h : AppInv s) :
    AppInv (startRecognition s) :=
  appInv_of_fields h (startRecognition_status s) (startRecognition_endedAtMs s)
    (startRecognition_history s)

theorem appInv_handleStart {s : AppState} (h : AppInv s) (now : Int) :
    AppInv (handleStart now s) := by
  by_cases hst : s.status = FlowrStatus.running
  · simpa [handleStart, hst] using h
  · refine appInv_of_fields (t := handleStart now s) (s :=
      { stopRecognition s with
        startedAtMs := some now
        endedAtMs := none
        stopReason := none
        lastTranscript := []
        status := FlowrStatus.running }) ?_ ?_ ?_ ?_
    · exact ⟨by simp, h.2⟩
    · simp [handleStart, hst, startRecognition_status]
    · simp [handleStart, hst, startRecognition_endedAtMs]
    · simp [handleStart, hst, startRecognition_history, stopRecognition]

theorem mem_pushSessionToHistory {e session : FlowrSession}
    {hist : List FlowrSession} (h : e ∈ pushSessionToHistory session hist) :
    e = session ∨ e ∈ hist :=
  List.mem_cons.mp (List.take_subset _ _ h)

theorem appInv_handleStop {s : AppState} (h : AppInv s) (reason : StopReason)
    (tr : List Char) (now : Int) : AppInv (handleStop reason tr now s) := by
  by_cases hst : s.status = FlowrStatus.running
  · cases hsa : s.startedAtMs with
    | none => simpa [handleStop, hst, hsa] using h
    | some started =>
      refine ⟨?_, ?_⟩
      · simp [handleStop, hst, hsa, stopRecognition]
      · intro e he
        simp only [handleStop, hst, hsa, ne_eq, not_true_eq_false, if_false,
          reduceIte, stopRecognition] at he
        rcases mem_pushSessionToHistory he with rfl | hmem
        · exact le_max_left 0 _
        · exact h.2 e hmem
  · simpa [handleStop, hst] using h

theorem appInv_handleReset {s : AppState} (h : AppInv s) :
    AppInv (handleReset s) := by
  exact ⟨by simp [handleReset, stopRecognition], by
    intro e he
    exact h.2 e (by simpa [handleReset, stopRecognition] using he)⟩

theorem appInv_maybeVoiceStop {s : AppState} (h : AppInv s) (tr : List Char)
    (now : Int) : AppInv (maybeVoiceStop tr now s) := by
  unfold maybeVoiceStop
  cases voiceStopDecision tr s.status s.voiceEnabled s.voiceMode s.keywordInput with
  | none => exact h
  | some reason => exact appInv_handleStop h reason tr now

theorem appInv_simulateClick {s : AppState} (h : AppInv s) (now : Int) :
    AppInv (simulateClick now s) := by
  unfold simulateClick
  cases simulateStopDecision s.status s.voiceMode s.keywordInput with
  | none => exact h
  | some reason => exact appInv_handleStop h reason _ now

theorem appInv_onendEvent {s : AppState} (h : AppInv s) :
    AppInv (onendEvent s) := by
  unfold onendEvent
  split_ifs
  · exact appInv_startRecognition h
  · exact h

theorem appInv_setVoiceEnabled {s : AppState} (h : AppInv s) (checked : Bool) :
    AppInv (setVoiceEnabled checked s) := by
  unfold setVoiceEnabled
  have h1 : AppInv { s with voiceEnabled := checked } :=
    appInv_of_fields h rfl rfl rfl
  have h2 : AppInv (if ({ s with voiceEnabled := checked } : AppState).status =
      FlowrStatus.running ∧ checked then
        startRecognition { s with voiceEnabled := checked }
      else { s with voiceEnabled := checked }) := by
    split_ifs
    · exact appInv_startRecognition h1
    · exact h1
  split_ifs
  · exact appInv_of_fields h2 rfl rfl rfl
  · exact h2

theorem appInv_reachable {s : AppState} (h : AppReachable s) : AppInv s := by
  induction h with
  | init ve m kw sup => exact ⟨by simp [initialAppState], by simp [initialAppState]⟩
  | start now _ ih => exact appInv_handleStart ih now
  | stop reason tr now _ ih => exact appInv_handleStop ih reason tr now
  | reset _ ih => exact appInv_handleReset ih
  | voiceStop tr now _ ih => exact appInv_maybeVoiceStop ih tr now
  | simulate now _ ih => exact appInv_simulateClick ih now
  | streamEnd _ ih => exact appInv_onendEvent ih
  | setVoice checked _ ih => exact appInv_setVoiceEnabled ih checked
  | setMode m _ ih => exact appInv_of_fields ih rfl rfl rfl
  | setKw kw _ ih => exact appInv_of_fields ih rfl rfl rfl

/-- The corresponding invariant for the bot's shared record: `endedAt` is
non-null exactly when stopped, `durationMs` is always non-null and
non-negative, and it is exactly `0` while idle or running. -/
def BotInv (b : BotTimerState) : Prop :=
  (b.endedAt ≠ none ↔ b.status = FlowrStatus.stopped) ∧
  (∃ d, b.durationMs = some d ∧ 0 ≤ d) ∧
  ((b.status = FlowrStatus.idle ∨ b.status = FlowrStatus.running) →
    b.durationMs = some 0)

theorem botInv_reachable {b : BotTimerState} (h : BotReachable b) : BotInv b := by
  induction h with
  | init => exact ⟨by simp [defaultTimerState], ⟨0, by simp [defaultTimerState]⟩,
      fun _ => by simp [defaultTimerState]⟩
  | start now _ ih =>
    by_cases hst : ‹BotTimerState›.status = FlowrStatus.running
    · simpa [timerStart, hst] using ih
    · exact ⟨by simp [timerStart, hst], ⟨0, by simp [timerStart, hst]⟩,
        fun _ => by simp [timerStart, hst]⟩
  | stop now _ ih =>
    by_cases hst : ‹BotTimerState›.status = FlowrStatus.running
    · refine ⟨by simp [timerStop, hst], ⟨max 0 (now - ‹BotTimerState›.startedAt.getD 0),
        by simp [timerStop, hst], le_max_left 0 _⟩, ?_⟩
      intro hcase
      simp [timerStop, hst] at hcase
    · simpa [timerStop, hst] using ih
  | reset _ ih =>
    exact ⟨by simp [timerReset], ⟨0, by simp [timerReset]⟩,
      fun _ => by simp [timerReset]⟩

theorem take_append_take {α : Type} (a b : List α) (n : Nat) :
    (a ++ b.take n).take n = (a ++ b).take n := by
  rw [List.take_append_eq_append_take, List.take_append_eq_append_take,
    List.take_take, Nat.min_eq_left (Nat.sub_le n a.length)]

/-- The history produced by appending the sessions of `ss` in order, oldest
first, through `pushSessionToHistory`, starting from an empty store. -/
def appendSessions (ss : List FlowrSession) : List FlowrSession :=
  ss.foldl (fun hist session => pushSessionToHistory session hist) []

theorem foldl_pushSessionToHistory (ss : List FlowrSession) :
    ∀ acc : List FlowrSession, acc.length ≤ HISTORY_LIMIT →
      ss.foldl (fun hist session => pushSessionToHistory session hist) acc =
        (ss.reverse ++ acc).take HISTORY_LIMIT := by
  induction ss with
  | nil =>
    intro acc hacc
    simp [List.take_of_length_le hacc]
  | cons s rest ih =>
    intro acc hacc
    have hlen : (pushSessionToHistory s acc).length ≤ HISTORY_LIMIT := by
      simp only [pushSessionToHistory, List.length_take]
      exact Nat.min_le_left _ _
    calc (s :: rest).foldl (fun hist session => pushSessionToHistory session hist) acc
        = rest.foldl (fun hist session => pushSessionToHistory session hist)
            (pushSessionToHistory s acc) := by simp
      _ = (rest.reverse ++ pushSessionToHistory s acc).take HISTORY_LIMIT :=
            ih (pushSessionToHistory s acc) hlen
      _ = (rest.reverse ++ (s :: acc)).take HISTORY_LIMIT := by
            rw [pushSessionToHistory, take_append_take]
      _ = ((s :: rest).reverse ++ acc).take HISTORY_LIMIT := by
            simp [List.append_assoc]

theorem appendSessions_eq (ss : List FlowrSession) :
    appendSessions ss = ss.reverse.take HISTORY_LIMIT := by
  have := foldl_pushSessionToHistory ss [] (by simp [HISTORY_LIMIT])
  simpa [appendSessions] using this

/-! ### Claim theorems -/

/-- Claim C1: `finishIfDue` returns the record unchanged unless it is
running with a set (truthy) scheduled finish timestamp that `now` has
reached; in that case the result has status finished and its recorded
finish timestamp equals the scheduled one — independent of the observation
instant — so re-evaluating a finished record is a no-op and delayed
observation never changes the recorded end instant. -/
theorem finishIfDue_scheduled_finish (s : SchedState) (now : Int) :
    (s.status ≠ SchedStatus.running → finishIfDue s now = s) ∧
    (jsTruthyNum s.autoFinishTs = false → finishIfDue s now = s) ∧
    (∀ ts : Int, s.autoFinishTs = some ts → now < ts → finishIfDue s now = s) ∧
    (∀ ts : Int, s.status = SchedStatus.running → s.autoFinishTs = some ts →
      jsTruthyNum s.autoFinishTs = true → ts ≤ now →
      finishIfDue s now =
        { s with status := SchedStatus.finished, finishTs := some ts }) := by
  refine ⟨fun h => by simp [finishIfDue, h], ?_, ?_, ?_⟩
  · intro h
    unfold finishIfDue
    split_ifs with h1
    · rfl
    · cases hts : s.autoFinishTs with
      | none => rfl
      | some ts =>
        have hz : ts = 0 := by simpa [jsTruthyNum, hts] using h
        simp [hz]
  · intro ts hts hlt
    unfold finishIfDue
    rw [hts]
    split_ifs <;> simp_all
  · intro ts hrun hts htr hle
    have hz : ts ≠ 0 := by simpa [jsTruthyNum, hts] using htr
    unfold finishIfDue
    rw [hts]
    simp [hrun, hz, not_lt.mpr hle]

/-- Witness for C1: the dev-test record (src/app.js lines 224-237) observed
very late finishes at the scheduled 2000, and a finished record is left
unchanged. -/
theorem finishIfDue_scheduled_finish_witness :
    finishIfDue ⟨SchedStatus.running, some 1000, some 2000, none⟩ 999999 =
      ⟨SchedStatus.finished, some 1000, some 2000, some 2000⟩ ∧
    finishIfDue ⟨SchedStatus.finished, some 1000, some 2000, some 2000⟩ 5000 =
      ⟨SchedStatus.finished, some 1000, some 2000, some 2000⟩ := by
  constructor
  · have h := (finishIfDue_scheduled_finish
      ⟨SchedStatus.running, some 1000, some 2000, none⟩ 999999).2.2.2
      2000 rfl rfl (by decide) (by decide)
    simpa using h
  · exact (finishIfDue_scheduled_finish _ 5000).1 (by decide)

/-- Claim C2 is false as stated: with voice disabled (first conjunct), or
with an empty configured keyword in keyword mode (second conjunct), the
simulate entry point issues a stop while the live policy does not. -/
theorem simulate_live_divergence :
    simulateStopDecision FlowrStatus.running VoiceMode.any [] ≠
      voiceStopDecision "hello".toList FlowrStatus.running false VoiceMode.any [] ∧
    simulateStopDecision FlowrStatus.running VoiceMode.keyword [] ≠
      voiceStopDecision (simulateTranscript VoiceMode.keyword [])
        FlowrStatus.running true VoiceMode.keyword [] := by
  decide

/-- Claim C2 (amended): whenever voice is enabled and, in keyword mode, the
trimmed configured keyword is non-empty, the simulate handler's stop
decision equals the live policy's decision on the transcript the simulate
handler synthesizes — the same stop/no-stop outcome and the same reason. -/
theorem simulate_matches_live_policy (status : FlowrStatus) (mode : VoiceMode)
    (kwInput : List Char) (hkw : mode = VoiceMode.any ∨ jsTrim kwInput ≠ []) :
    simulateStopDecision status mode kwInput =
      voiceStopDecision (simulateTranscript mode kwInput) status true mode kwInput := by
  cases mode with
  | any =>
    by_cases hst : status = FlowrStatus.running <;>
      simp [simulateStopDecision, voiceStopDecision, simulateTranscript, hst]
  | keyword =>
    have hk : jsTrim kwInput ≠ [] := hkw.resolve_left (by decide)
    by_cases hst : status = FlowrStatus.running
    · simp [simulateStopDecision, voiceStopDecision, simulateTranscript, hst,
        jsOrDefault, hk, jsIncludes_self]
    · simp [simulateStopDecision, voiceStopDecision, hst]

/-- Witness for the amended C2 at a concrete non-empty keyword. -/
theorem simulate_matches_live_policy_witness :
    simulateStopDecision FlowrStatus.running VoiceMode.keyword "go".toList =
      voiceStopDecision (simulateTranscript VoiceMode.keyword "go".toList)
        FlowrStatus.running true VoiceMode.keyword "go".toList :=
  simulate_matches_live_policy _ _ _ (Or.inr (by decide))

/-- Claim C3: with a running session, voice enabled and keyword mode, the
live policy stops with reason voice_keyword iff the lower-cased utterance
contains the lower-cased trimmed keyword as a substring; an empty trimmed
keyword never triggers a stop, also at the state level. -/
theorem keyword_policy_substring (transcript kwInput : List Char) :
    (jsTrim kwInput ≠ [] →
      (voiceStopDecision transcript FlowrStatus.running true VoiceMode.keyword
          kwInput = some StopReason.voice_keyword ↔
        jsIncludes (jsToLower transcript) (jsToLower (jsTrim kwInput)) = true)) ∧
    (jsTrim kwInput = [] →
      voiceStopDecision transcript FlowrStatus.running true VoiceMode.keyword
        kwInput = none) ∧
    (∀ (now : Int) (s : AppState), jsTrim s.keywordInput = [] →
      s.voiceMode = VoiceMode.keyword → maybeVoiceStop transcript now s = s) := by
  refine ⟨?_, ?_, ?_⟩
  · intro hk
    by_cases hinc : jsIncludes (jsToLower transcript) (jsToLower (jsTrim kwInput)) = true
    · simp [voiceStopDecision, hk, hinc]
    · simp [voiceStopDecision, hk, hinc]
  · intro hk
    simp [voiceStopDecision, hk]
  · intro now s hk hm
    have hdec : voiceStopDecision transcript s.status s.voiceEnabled s.voiceMode
        s.keywordInput = none := by
      unfold voiceStopDecision
      split_ifs <;> simp_all
    simp [maybeVoiceStop, hdec]

/-- Witness for C3: the spec's own examples — keyword "stop" against
"Please STOP now" stops with voice_keyword; the empty keyword against
"stop" does not. -/
theorem keyword_policy_substring_witness :
    voiceStopDecision "Please STOP now".toList FlowrStatus.running true
      VoiceMode.keyword "stop".toList = some StopReason.voice_keyword ∧
    voiceStopDecision "stop".toList FlowrStatus.running true
      VoiceMode.keyword [] = none := by
  constructor
  · exact ((keyword_policy_substring _ _).1 (by decide)).mpr (by decide)
  · exact (keyword_policy_substring _ _).2.1 (by decide)

/-- Claim C4: when the recognition stream ends while the session is still
running with voice enabled and speech supported, a new stream start is
attempted (the debounce flag becomes pending, and `recognition.start()` is
called unless a start was already pending); after `handleStop` of a running
session or after `handleReset`, a subsequently delivered stream-end event
arms nothing — the state, including the count of start attempts, is
unchanged. -/
theorem onend_rearm_policy (s : AppState) :
    (s.status = FlowrStatus.running → s.voiceEnabled = true →
      s.speechSupported = true → s.recognitionStarting = false →
      (onendEvent s).startCalls = s.startCalls + 1 ∧
      (onendEvent s).recognitionStarting = true) ∧
    (s.status = FlowrStatus.running → s.voiceEnabled = true →
      s.speechSupported = true → s.recognitionStarting = true →
      onendEvent s = s) ∧
    onendEvent (handleReset s) = handleReset s ∧
    (∀ (reason : StopReason) (tr : List Char) (now : Int),
      s.status = FlowrStatus.running → s.startedAtMs ≠ none →
      onendEvent (handleStop reason tr now s) = handleStop reason tr now s) := by
  refine ⟨?_, ?_, ?_, ?_⟩
  · intro h1 h2 h3 h4
    simp [onendEvent, startRecognition, h1, h2, h3, h4]
  · intro h1 h2 h3 h4
    simp [onendEvent, startRecognition, h1, h2, h3, h4]
  · have hidle : (handleReset s).status = FlowrStatus.idle := rfl
    simp [onendEvent, hidle]
  · intro reason tr now h1 h2
    cases hsa : s.startedAtMs with
    | none => exact absurd hsa h2
    | some started =>
      have hstop : (handleStop reason tr now s).status = FlowrStatus.stopped := by
        simp [handleStop, h1, hsa, stopRecognition]
      simp [onendEvent, hstop]

/-- Witness for C4 at a concrete running state with an active (not merely
pending) stream, and at the record left by a concrete stop. -/
theorem onend_rearm_policy_witness :
    (onendEvent
      { status := FlowrStatus.running, startedAtMs := some 0,
        endedAtMs := none, stopReason := none, lastTranscript := [],
        history := [], voiceEnabled := true, voiceMode := VoiceMode.any,
        keywordInput := [], speechSupported := true,
        recognitionStarting := false, startCalls := 1 }).startCalls = 2 ∧
    onendEvent (handleStop StopReason.manual [] 5
      { status := FlowrStatus.running, startedAtMs := some 0,
        endedAtMs := none, stopReason := none, lastTranscript := [],
        history := [], voiceEnabled := true, voiceMode := VoiceMode.any,
        keywordInput := [], speechSupported := true,
        recognitionStarting := false, startCalls := 1 }) =
    handleStop StopReason.manual [] 5
      { status := FlowrStatus.running, startedAtMs := some 0,
        endedAtMs := none, stopReason := none, lastTranscript := [],
        history := [], voiceEnabled := true, voiceMode := VoiceMode.any,
        keywordInput := [], speechSupported := true,
        recognitionStarting := false, startCalls := 1 } := by
  constructor
  · exact ((onend_rearm_policy _).1 rfl rfl rfl rfl).1
  · exact (onend_rearm_policy _).2.2.2 StopReason.manual [] 5 rfl (by decide)

/-- Claim C5 is false as stated: the bot's shared record — already in its
default state, reachable with zero commands, and again after
`timer-start` — holds a non-null `durationMs` of `0` while idle or
running. -/
theorem bot_nullability_counterexample :
    BotReachable defaultTimerState ∧
    ¬ ((defaultTimerState.durationMs ≠ none) ↔
        defaultTimerState.status = FlowrStatus.stopped) ∧
    BotReachable (timerStart 0 defaultTimerState) ∧
    (timerStart 0 defaultTimerState).status = FlowrStatus.running ∧
    (timerStart 0 defaultTimerState).durationMs = some 0 :=
  ⟨BotReachable.init, by decide, BotReachable.start 0 BotReachable.init,
    by decide, by decide⟩

/-- Claim C5 (amended): in every reachable app state `endedAtMs` is
non-null iff the status is stopped (so never while idle or running); in
every reachable bot record `endedAt` is non-null iff stopped, while
`durationMs` is always non-null and equals `0` whenever the status is idle
or running. -/
theorem nullability_invariant :
    (∀ a : AppState, AppReachable a →
      ((a.endedAtMs ≠ none) ↔ a.status = FlowrStatus.stopped)) ∧
    (∀ b : BotTimerState, BotReachable b →
      ((b.endedAt ≠ none) ↔ b.status = FlowrStatus.stopped) ∧
      b.durationMs ≠ none ∧
      ((b.status = FlowrStatus.idle ∨ b.status = FlowrStatus.running) →
        b.durationMs = some 0)) := by
  constructor
  · intro a ha
    exact (appInv_reachable ha).1
  · intro b hb
    obtain ⟨h1, ⟨d, hd, _⟩, h3⟩ := botInv_reachable hb
    exact ⟨h1, by simp [hd], h3⟩

/-- Witness for the amended C5 at the two zero-command states. -/
theorem nullability_invariant_witness :
    (initialAppState false VoiceMode.any [] false).endedAtMs = none ∧
    defaultTimerState.durationMs = some 0 := by
  constructor
  · have h := nullability_invariant.1 _
      (AppReachable.init false VoiceMode.any [] false)
    by_contra hne
    exact absurd (h.mp hne) (by decide)
  · exact (nullability_invariant.2 _ BotReachable.init).2.2 (Or.inl rfl)

/-- Claim C6: starting while running is a silent no-op in both actors — the
whole state (hence startedAt, status, endedAt, stopReason) is unchanged,
and a second start never changes what the first start produced. -/
theorem double_start_noop (s : AppState) (b : BotTimerState) (now now2 : Int) :
    (s.status = FlowrStatus.running → handleStart now s = s) ∧
    handleStart now2 (handleStart now s) = handleStart now s ∧
    (b.status = FlowrStatus.running → timerStart now b = b) ∧
    timerStart now2 (timerStart now b) = timerStart now b := by
  have happ : ∀ t : AppState, t.status = FlowrStatus.running →
      handleStart now2 t = t := by
    intro t ht
    simp [handleStart, ht]
  have hbot : ∀ t : BotTimerState, t.status = FlowrStatus.running →
      timerStart now2 t = t := by
    intro t ht
    simp [timerStart, ht]
  refine ⟨fun h => by simp [handleStart, h], ?_,
    fun h => by simp [timerStart, h], ?_⟩
  · apply happ
    by_cases hst : s.status = FlowrStatus.running
    · simp [handleStart, hst]
    · simp [handleStart, hst, startRecognition_status]
  · apply hbot
    by_cases hst : b.status = FlowrStatus.running
    · simp [timerStart, hst]
    · simp [timerStart, hst]

/-- Witness for C6: a state freshly started at t=0 is untouched by a second
start at t=1, in both actors. -/
theorem double_start_noop_witness :
    handleStart 1 (handleStart 0 (initialAppState true VoiceMode.any [] true)) =
      handleStart 0 (initialAppState true VoiceMode.any [] true) ∧
    timerStart 1 (timerStart 0 defaultTimerState) =
      timerStart 0 defaultTimerState := by
  constructor
  · exact (double_start_noop (handleStart 0 (initialAppState true VoiceMode.any
      [] true)) defaultTimerState 1 2).1 (by decide)
  · exact (double_start_noop (initialAppState true VoiceMode.any [] true)
      (timerStart 0 defaultTimerState) 1 2).2.2.1 (by decide)

/-- Claim C7: under every command sequence and every pair of clock
readings — including a clock that runs backwards between start and stop —
every finalized duration is non-negative: each history entry of a reachable
app state, and the bot record's `durationMs` whenever it is stopped. -/
theorem duration_never_negative :
    (∀ a : AppState, AppReachable a → ∀ e ∈ a.history, 0 ≤ e.durationMs) ∧
    (∀ b : BotTimerState, BotReachable b → b.status = FlowrStatus.stopped →
      ∀ d : Int, b.durationMs = some d → 0 ≤ d) := by
  constructor
  · intro a ha
    exact (appInv_reachable ha).2
  · intro b hb _ d hd
    obtain ⟨_, ⟨d0, hd0, hnn⟩, _⟩ := botInv_reachable hb
    have hdd : d0 = d := by
      rw [hd0] at hd
      exact Option.some.inj hd
    exact hdd ▸ hnn

/-- Witness for C7 with a backwards clock: started at t=10, stopped at t=5;
the recorded duration is clamped to 0 in both actors. -/
theorem duration_never_negative_witness :
    (timerStop 5 (timerStart 10 defaultTimerState)).durationMs = some 0 ∧
    (0:Int) ≤ 0 ∧
    0 ≤ (sessionOfStop StopReason.manual 10 5
      (handleStart 10 (initialAppState false VoiceMode.any [] false))).durationMs := by
  refine ⟨by decide, ?_, ?_⟩
  · exact duration_never_negative.2 _
      (BotReachable.stop 5 (BotReachable.start 10 BotReachable.init))
      (by decide) 0 (by decide)
  · exact duration_never_negative.1 _
      (AppReachable.stop StopReason.manual [] 5
        (AppReachable.start 10 (AppReachable.init false VoiceMode.any [] false)))
      _ (by decide)

/-- Claim C8: appending any sequence of finalized sessions through
`pushSessionToHistory` yields exactly the most-recent-first reversal capped
at `HISTORY_LIMIT`; the length is `min HISTORY_LIMIT n`, so an 11th append
leaves 10 entries, and the newest session is always at index 0. -/
theorem history_bounded_most_recent_first (ss : List FlowrSession) :
    appendSessions ss = ss.reverse.take HISTORY_LIMIT ∧
    (appendSessions ss).length = min HISTORY_LIMIT ss.length ∧
    ∀ session : FlowrSession,
      (appendSessions (ss ++ [session])).head? = some session := by
  refine ⟨appendSessions_eq ss, ?_, ?_⟩
  · rw [appendSessions_eq]
    simp [List.length_take]
  · intro session
    rw [appendSessions_eq]
    simp [List.reverse_append, HISTORY_LIMIT]

/-- Claim C9: a stop is insensitive to the transcript that triggered it,
and the only new history entry it can create is `sessionOfStop`, whose
`transcriptSnippet` is null and which latches only the voice-enabled flag,
the mode and the configured keyword — never the utterance. -/
theorem stop_never_persists_transcript (reason : StopReason) (tr : List Char)
    (now : Int) (s : AppState) :
    handleStop reason tr now s = handleStop reason [] now s ∧
    ((handleStop reason tr now s).history = s.history ∨
      ∃ started : Int, s.startedAtMs = some started ∧
        (handleStop reason tr now s).history =
          pushSessionToHistory (sessionOfStop reason started now s) s.history) ∧
    (∀ started : Int, (sessionOfStop reason started now s).transcriptSnippet = none ∧
      (sessionOfStop reason started now s).voiceEnabled = s.voiceEnabled ∧
      (sessionOfStop reason started now s).voiceMode =
        (if s.voiceEnabled then some s.voiceMode else none) ∧
      (sessionOfStop reason started now s).keyword =
        (if s.voiceEnabled ∧ s.voiceMode = VoiceMode.keyword
         then some (getKeyword s) else none)) := by
  refine ⟨rfl, ?_, fun started => ⟨rfl, rfl, rfl, rfl⟩⟩
  by_cases hst : s.status = FlowrStatus.running
  · cases hsa : s.startedAtMs with
    | none =>
      left
      simp [handleStop, hst, hsa]
    | some started =>
      right
      refine ⟨started, rfl, ?_⟩
      simp [handleStop, hst, hsa, stopRecognition, sessionOfStop]
  · left
    simp [handleStop, hst]

/-- Claim C10: whatever the history storage slot holds — an absent key, a
value `JSON.parse` rejects, or parsed JSON that is not an array — the
`loadHistory` read path returns the empty list instead of failing. -/
theorem loadHistory_robust (parse : List Char → Option JsValue)
    (stored : Option (List Char)) :
    (stored = none → loadHistory parse stored = []) ∧
    (∀ raw : List Char, stored = some raw → parse raw = none →
      loadHistory parse stored = []) ∧
    (∀ (raw : List Char) (v : JsValue), stored = some raw → parse raw = some v →
      (∀ elems : List JsValue, v ≠ JsValue.jsArr elems) →
      loadHistory parse stored = []) := by
  refine ⟨?_, ?_, ?_⟩
  · intro h
    simp [loadHistory, h]
  · intro raw hraw hp
    subst hraw
    by_cases hempty : raw = []
    · simp [loadHistory, hempty]
    · simp [loadHistory, hempty, hp]
  · intro raw v hraw hp hv
    subst hraw
    by_cases hempty : raw = []
    · simp [loadHistory, hempty]
    · cases v <;> first
        | exact absurd rfl (hv _)
        | simp [loadHistory, hempty, hp]

/-- Witness for C10: an absent slot, a slot whose content fails to parse,
and a slot parsing to a non-array all load as the empty history. -/
theorem loadHistory_robust_witness :
    loadHistory (fun _ => none) none = [] ∧
    loadHistory (fun _ => none) (some "bad json".toList) = [] ∧
    loadHistory (fun _ => some (JsValue.jsObj [])) (some "x".toList) = [] := by
  refine ⟨(loadHistory_robust (fun _ => none) none).1 rfl, ?_, ?_⟩
  · exact (loadHistory_robust _ _).2.1 _ rfl rfl
  · exact (loadHistory_robust _ _).2.2 _ _ rfl rfl
      (fun elems h => JsValue.noConfusion h)

end Flowr
